/-
  Verification development for the nintendo-pi Pro Controller MITM bridge.

  Shallow embedding of the Rust sources (src/nintendo-pi-rs) in Lean 4:
  machine integers are modelled as `Nat` (bytes are values < 256, with
  explicit `% 2 ^ w` truncation where Rust casts truncate), byte buffers
  as `List Nat`, floating-point scalars as `ℚ` (the program only compares
  and clamps them at dyadic values, where IEEE arithmetic is exact), and
  monotonic clock instants as `ℚ` seconds passed in explicitly.
-/
import Mathlib

namespace NintendoPi

/-! ## bt/protocol.rs -/

/-- SPI flash read response data; maps (address, length) to pre-built
response bytes.  Port of `spi_read_response` in `src/bt/protocol.rs`. -/
def spi_read_response (addr len : Nat) : List Nat :=
  if addr = 0x6000 ∧ len = 0x10 then
    [0x00, 0x00, 0x00, 0x00, 0x00, 0x00, 0x00, 0x00,
     0x00, 0x00, 0x00, 0x00, 0x00, 0x00, 0x00, 0x00]
  else if addr = 0x6050 ∧ len = 0x0D then
    [0x32, 0x32, 0x32,
     0xFF, 0xFF, 0xFF,
     0x32, 0x32, 0x32,
     0xFF, 0xFF, 0xFF,
     0x03]
  else if addr = 0x603D ∧ len = 0x12 then
    [0x00, 0x07, 0x70, 0x00, 0x08, 0x80, 0x00, 0x07, 0x70,
     0x00, 0x07, 0x70, 0x00, 0x08, 0x80, 0x00, 0x07, 0x70]
  else if addr = 0x8010 ∧ len = 0x16 then
    -- `vec![0xFF; 0x16]` with data[0] and data[1] re-set to 0xFF
    (((List.replicate 0x16 0xFF).set 0 0xFF).set 1 0xFF)
  else if addr = 0x6086 ∧ len = 0x12 then
    [0x0F, 0x30, 0x61, 0x96, 0x30, 0xF3,
     0xD4, 0x14, 0x54, 0x41, 0x15, 0x54,
     0xC7, 0x79, 0x9C, 0x33, 0x36, 0x63]
  else if addr = 0x6020 ∧ len = 0x18 then
    [0xBE, 0xFF, 0x3E, 0x00, 0xF0, 0x01,
     0x00, 0x40, 0x00, 0x40, 0x00, 0x40,
     0xFE, 0xFF, 0xFE, 0xFF, 0x08, 0x00,
     0xE7, 0x3B, 0xE7, 0x3B, 0xE7, 0x3B]
  else if addr = 0x8026 ∧ len = 0x1A then
    (((List.replicate 0x1A 0xFF).set 0 0xFF).set 1 0xFF)
  else if addr = 0x6080 ∧ len = 0x06 then
    [0x50, 0xFD, 0x00, 0x00, 0xC6, 0x0F]
  else
    List.replicate len 0x00

/-- Build a subcommand reply (0x21 report); port of `build_subcommand_reply`
in `src/bt/protocol.rs`.  A 50-byte zeroed buffer is filled at fixed
offsets, then the subcommand data is copied in starting at offset 14. -/
def build_subcommand_reply (timer subcmd ack : Nat) (data : List Nat) : List Nat :=
  let reply := List.replicate 50 0
  let reply := (reply.set 0 0x21).set 1 timer
  let reply := ((reply.set 5 0x00).set 6 0x08).set 7 0x80
  let reply := ((reply.set 8 0x00).set 9 0x08).set 10 0x80
  let reply := (reply.set 12 ack).set 13 subcmd
  let copy_len := min data.length (reply.length - 14)
  reply.take 14 ++ data.take copy_len ++ reply.drop (14 + copy_len)

/-- Handle a subcommand from the Switch; port of `handle_subcommand` in
`src/bt/protocol.rs`.  Returns (ack byte, reply payload). -/
def handle_subcommand (subcmd_id : Nat) (subcmd_data : List Nat) : Nat × List Nat :=
  if subcmd_id = 0x02 then
    (0x82, [0x03, 0x48,
            0x03,
            0x02,
            0x98, 0xB6, 0xE9, 0x46, 0x50, 0x6A,
            0x01,
            0x01])
  else if subcmd_id = 0x03 then (0x80, [])
  else if subcmd_id = 0x04 then (0x83, [])
  else if subcmd_id = 0x08 then (0x80, [])
  else if subcmd_id = 0x10 then
    match subcmd_data with
    | b0 :: b1 :: b2 :: b3 :: b4 :: _ =>
        let addr := b0 + b1 * 0x100 + b2 * 0x10000 + b3 * 0x1000000
        let length := b4
        (0x90, [b0, b1, b2, b3, length] ++ spi_read_response addr length)
    | _ => (0x80, [])
  else if subcmd_id = 0x21 then
    (0xA0, [0x01, 0x00, 0xFF, 0x00, 0x03, 0x00, 0x05, 0x01])
  else if subcmd_id = 0x30 then (0x80, [])
  else if subcmd_id = 0x38 then (0x80, [])
  else if subcmd_id = 0x40 then (0x80, [])
  else if subcmd_id = 0x41 then (0x80, [])
  else if subcmd_id = 0x48 then (0x80, [])
  else (0x80, [])

/-! ### Claims about bt/protocol.rs -/

/-- C9: for every address and requested length, `spi_read_response`
returns a byte vector whose length is exactly the requested length,
in every specially cased branch and in the catch-all branch. -/
theorem spi_read_response_length (addr len : Nat) :
    (spi_read_response addr len).length = len := by
  unfold spi_read_response
  split
  · next h => simp [h.2]
  · split
    · next h => simp [h.2]
    · split
      · next h => simp [h.2]
      · split
        · next h => simp [h.2]
        · split
          · next h => simp [h.2]
          · split
            · next h => simp [h.2]
            · split
              · next h => simp [h.2]
              · split
                · next h => simp [h.2]
                · simp

/-- C1: the subcommand reply actually built by `build_subcommand_reply` is
50 bytes but does NOT carry the 0xA1 transaction header / 0x90 battery /
0xB0 vibrator framing the specification describes: at timer 7, subcommand
0x48, ACK 0x80 and empty payload, byte 0 is the report id 0x21 (not 0xA1),
byte 1 is the timer (not the report id), byte 3 is 0 (not 0x90), byte 13
is the subcommand id (not the vibrator 0xB0), and the ACK sits at byte 12
rather than 14. -/
theorem build_subcommand_reply_layout_diverges :
    (build_subcommand_reply 7 0x48 0x80 []).length = 50 ∧
    (build_subcommand_reply 7 0x48 0x80 []).getD 0 0 = 0x21 ∧
    (build_subcommand_reply 7 0x48 0x80 []).getD 1 0 = 7 ∧
    (build_subcommand_reply 7 0x48 0x80 []).getD 2 0 = 0 ∧
    (build_subcommand_reply 7 0x48 0x80 []).getD 3 0 = 0 ∧
    (build_subcommand_reply 7 0x48 0x80 []).getD 12 0 = 0x80 ∧
    (build_subcommand_reply 7 0x48 0x80 []).getD 13 0 = 0x48 ∧
    (build_subcommand_reply 7 0x48 0x80 []).getD 14 0 = 0 := by
  decide

/-- C2 counterexample: `handle_subcommand` on subcommand 0x48 (enable
vibration) does not acknowledge with 0x82 as the specification claims. -/
theorem handle_subcommand_48_ack_ne_82 :
    (handle_subcommand 0x48 []).1 ≠ 0x82 := by
  decide

/-- C2 (amended): for every payload, `handle_subcommand` on subcommand
0x48 (enable vibration) returns acknowledge byte 0x80 and an empty
reply payload. -/
theorem handle_subcommand_48 (subcmd_data : List Nat) :
    handle_subcommand 0x48 subcmd_data = (0x80, []) := by
  rfl

/-! ## input.rs -/

/-- Unpack two 12-bit values from 3 bytes (little-endian nibble packing);
port of `unpack_12bit_triplet` in `src/input.rs`.  The source indexes a
byte slice at 0, 1, 2; the three bytes are passed here explicitly. -/
def unpack_12bit_triplet (d0 d1 d2 : Nat) : Nat × Nat :=
  let a := d0 ||| ((d1 &&& 0x0F) <<< 8)
  let b := (d1 >>> 4) ||| (d2 <<< 4)
  (a, b)

/-- The 3-byte stick packing performed for bytes 7-9 (and 10-12) of the
Bluetooth report in `build_bt_report`, `src/input.rs` lines 277-279:
`report[7] = lx & 0xFF; report[8] = ((lx >> 8) & 0x0F) | ((ly & 0x0F) << 4);
report[9] = (ly >> 4) & 0xFF`. -/
def pack_12bit_triplet (x y : Nat) : Nat × Nat × Nat :=
  (x &&& 0xFF,
   ((x >>> 8) &&& 0x0F) ||| ((y &&& 0x0F) <<< 4),
   (y >>> 4) &&& 0xFF)

/-- Rewrites a mask-by-255 as a remainder. -/
theorem and_255_eq_mod (z : Nat) : z &&& 255 = z % 256 := by
  have h := Nat.and_pow_two_sub_one_eq_mod z 8
  norm_num at h
  exact h

/-- Rewrites a mask-by-15 as a remainder. -/
theorem and_15_eq_mod (z : Nat) : z &&& 15 = z % 16 := by
  have h := Nat.and_pow_two_sub_one_eq_mod z 4
  norm_num at h
  exact h

/-- A bitwise or of disjoint ranges is an addition. -/
theorem or_eq_add_of_lt {b : Nat} (a : Nat) (k : Nat) (hb : b < 2 ^ k) :
    (2 ^ k * a) ||| b = 2 ^ k * a + b :=
  (Nat.mul_add_lt_is_or hb a).symm

/-! ### Claim C7 -/

/-- C7: for every pair (x, y) with x, y ≤ 4095, packing (x, y) into a
3-byte stick triplet as done for bytes 7-9 of the Bluetooth report and
then unpacking via `unpack_12bit_triplet` returns exactly (x, y). -/
theorem pack_unpack_12bit_roundtrip (x y : Nat) (hx : x ≤ 4095) (hy : y ≤ 4095) :
    (let p := pack_12bit_triplet x y
     unpack_12bit_triplet p.1 p.2.1 p.2.2) = (x, y) := by
  show unpack_12bit_triplet (x &&& 0xFF)
      (((x >>> 8) &&& 0x0F) ||| ((y &&& 0x0F) <<< 4)) ((y >>> 4) &&& 0xFF) = (x, y)
  have hx256 : x / 256 < 16 := by omega
  have hy16 : y / 16 < 256 := by omega
  -- reduce the middle byte to arithmetic
  have hb1 : ((x >>> 8) &&& 0x0F) ||| ((y &&& 0x0F) <<< 4)
      = 16 * (y % 16) + x / 256 := by
    rw [Nat.shiftRight_eq_div_pow, and_15_eq_mod, and_15_eq_mod, Nat.shiftLeft_eq]
    have hd : x / 2 ^ 8 % 16 = x / 256 := by
      have h8 : (2 : Nat) ^ 8 = 256 := by norm_num
      rw [h8]
      omega
    rw [hd, Nat.lor_comm]
    have := or_eq_add_of_lt (b := x / 256) (y % 16) 4
    norm_num at this
    rw [mul_comm (y % 16) 16] at *
    exact this hx256
  rw [hb1]
  unfold unpack_12bit_triplet
  have ha : (x &&& 0xFF) ||| (((16 * (y % 16) + x / 256) &&& 0x0F) <<< 8) = x := by
    have hmask : (16 * (y % 16) + x / 256) &&& 0x0F = x / 256 := by
      rw [and_15_eq_mod]
      omega
    rw [hmask, and_255_eq_mod, Nat.shiftLeft_eq, Nat.lor_comm]
    have := or_eq_add_of_lt (b := x % 256) (x / 256) 8
    norm_num at this
    have h2 : 256 * (x / 256) + x % 256 = x := by omega
    rw [mul_comm (x / 256) 256] at *
    rw [this (Nat.mod_lt _ (by norm_num)), h2]
  have hb : ((16 * (y % 16) + x / 256) >>> 4) ||| (((y >>> 4) &&& 0xFF) <<< 4) = y := by
    have hshift : (16 * (y % 16) + x / 256) >>> 4 = y % 16 := by
      rw [Nat.shiftRight_eq_div_pow]
      omega
    have hd2 : (y >>> 4) &&& 0xFF = y / 16 := by
      rw [Nat.shiftRight_eq_div_pow, and_255_eq_mod]
      norm_num [Nat.mod_eq_of_lt hy16]
    rw [hshift, hd2, Nat.shiftLeft_eq, Nat.lor_comm]
    have := or_eq_add_of_lt (b := y % 16) (y / 16) 4
    norm_num at this
    rw [mul_comm (y / 16) 16] at *
    rw [this (Nat.mod_lt _ (by norm_num))]
    omega
  rw [ha, hb]

/-- C7 witness: the round-trip law evaluated at the concrete pair
(2048, 1234). -/
theorem pack_unpack_12bit_roundtrip_witness :
    (2048 ≤ 4095 ∧ 1234 ≤ 4095) ∧
    (let p := pack_12bit_triplet 2048 1234
     unpack_12bit_triplet p.1 p.2.1 p.2.2) = (2048, 1234) :=
  ⟨⟨by decide, by decide⟩,
   pack_unpack_12bit_roundtrip 2048 1234 (by decide) (by decide)⟩

/-! ## input.rs: buttons -/

/-- Button name enum; port of `Button` in `src/input.rs`. -/
inductive Button where
  | B | A | Y | X | R | ZR | Plus | R3
  | DpadDown | DpadRight | DpadLeft | DpadUp
  | L | ZL | Minus | L3 | Home | Capture
  deriving DecidableEq

/-- (byte index in the 3-byte button field, bitmask); port of
`Button::position` in `src/input.rs`. -/
def Button.position : Button → Nat × Nat
  | .B => (0, 0x01)
  | .A => (0, 0x02)
  | .Y => (0, 0x04)
  | .X => (0, 0x08)
  | .R => (0, 0x10)
  | .ZR => (0, 0x20)
  | .Plus => (0, 0x40)
  | .R3 => (0, 0x80)
  | .DpadDown => (1, 0x01)
  | .DpadRight => (1, 0x02)
  | .DpadLeft => (1, 0x04)
  | .DpadUp => (1, 0x08)
  | .L => (1, 0x10)
  | .ZL => (1, 0x20)
  | .Minus => (1, 0x40)
  | .L3 => (1, 0x80)
  | .Home => (2, 0x01)
  | .Capture => (2, 0x02)

/-- All button states as booleans; port of `ButtonState` in `src/input.rs`. -/
structure ButtonState where
  b : Bool
  a : Bool
  y : Bool
  x : Bool
  r : Bool
  zr : Bool
  plus : Bool
  r3 : Bool
  dpad_down : Bool
  dpad_right : Bool
  dpad_left : Bool
  dpad_up : Bool
  l : Bool
  zl : Bool
  minus : Bool
  l3 : Bool
  home : Bool
  capture : Bool
  deriving DecidableEq

/-- The `Default` value of `ButtonState` (all buttons released). -/
def ButtonState.default : ButtonState :=
  ⟨false, false, false, false, false, false, false, false, false,
   false, false, false, false, false, false, false, false, false⟩

/-- Port of `ButtonState::get` in `src/input.rs`. -/
def ButtonState.get (bs : ButtonState) : Button → Bool
  | .B => bs.b
  | .A => bs.a
  | .Y => bs.y
  | .X => bs.x
  | .R => bs.r
  | .ZR => bs.zr
  | .Plus => bs.plus
  | .R3 => bs.r3
  | .DpadDown => bs.dpad_down
  | .DpadRight => bs.dpad_right
  | .DpadLeft => bs.dpad_left
  | .DpadUp => bs.dpad_up
  | .L => bs.l
  | .ZL => bs.zl
  | .Minus => bs.minus
  | .L3 => bs.l3
  | .Home => bs.home
  | .Capture => bs.capture

/-! ## combo.rs -/

/-- Action triggered by a combo; port of `ComboAction` in `src/combo.rs`. -/
inductive ComboAction where
  | None | ToggleMacroMode | ToggleRecording
  | PrevSlot | NextSlot | PlayMacro | StopPlayback
  deriving DecidableEq

/-- Hold duration for macro mode toggle (seconds). -/
def HOLD_DURATION : ℚ := 1 / 2

/-- Instant combos: button → action (edge-triggered when L3+R3 held). -/
def INSTANT_COMBOS : List (Button × ComboAction) :=
  [(.DpadLeft, .PrevSlot), (.DpadRight, .NextSlot),
   (.A, .PlayMacro), (.B, .StopPlayback)]

/-- Set of buttons to suppress: a fixed 8-slot array plus a fill count;
port of `SuppressedButtons` in `src/combo.rs`. -/
structure SuppressedButtons where
  buttons : List (Option Button)
  count : Nat
  deriving DecidableEq

/-- The `Default` value of `SuppressedButtons`. -/
def SuppressedButtons.default : SuppressedButtons :=
  ⟨List.replicate 8 none, 0⟩

/-- Port of `SuppressedButtons::add`. -/
def SuppressedButtons.add (s : SuppressedButtons) (btn : Button) : SuppressedButtons :=
  if s.count < s.buttons.length then
    ⟨s.buttons.set s.count (some btn), s.count + 1⟩
  else s

/-- Port of `SuppressedButtons::contains`. -/
def SuppressedButtons.contains (s : SuppressedButtons) (btn : Button) : Bool :=
  (s.buttons.take s.count).any (fun b => decide (b = some btn))

/-- One iteration of the loop body of `SuppressedButtons::filter_raw_report`:
clear one suppressed button's bit.  The u8 complement `!mask` is modelled
as `255 ^^^ mask`. -/
def filter_step (rep : List Nat) (b : Option Button) : List Nat :=
  match b with
  | some btn =>
      let byte_idx := btn.position.1
      let mask := btn.position.2
      rep.set (3 + byte_idx) (rep.getD (3 + byte_idx) 0 &&& (255 ^^^ mask))
  | none => rep

/-- Filter raw HID report: clear the suppressed buttons' bits inside the
button bytes at indices 3..6; port of
`SuppressedButtons::filter_raw_report` in `src/combo.rs`. -/
def SuppressedButtons.filter_raw_report (s : SuppressedButtons)
    (report : List Nat) : List Nat :=
  (s.buttons.take s.count).foldl filter_step report

/-- Combo detector state machine state; port of `ComboDetector` in
`src/combo.rs`.  The `Instant` stored for the D-pad Down hold is
modelled as rational seconds. -/
structure ComboDetector where
  macro_mode : Bool
  dpad_down_start : Option ℚ
  prev_buttons : ButtonState
  prev_base_held : Bool
  deriving DecidableEq

/-- Port of `ComboDetector::new`. -/
def ComboDetector.new : ComboDetector :=
  ⟨false, none, ButtonState.default, false⟩

/-- Process a button state; port of `ComboDetector::update` in
`src/combo.rs`.  `now` is the current monotonic time in seconds
(`Instant::now()`); returns ((action, suppressed buttons), next state). -/
def ComboDetector.update (st : ComboDetector) (now : ℚ) (buttons : ButtonState) :
    (ComboAction × SuppressedButtons) × ComboDetector :=
  let base_held := buttons.get .L3 && buttons.get .R3
  if base_held then
    -- Always suppress L3+R3 when both held
    let suppressed := (SuppressedButtons.default.add .L3).add .R3
    -- Check D-pad Down hold for macro mode toggle
    let dpad_down := buttons.get .DpadDown
    let (action₁, suppressed₁, start₁) :=
      if dpad_down then
        let suppressed := suppressed.add .DpadDown
        match st.dpad_down_start with
        | none => (ComboAction.None, suppressed, some now)
        | some start =>
            if HOLD_DURATION ≤ now - start then
              (ComboAction.ToggleMacroMode, suppressed, none)
            else (ComboAction.None, suppressed, some start)
      else (ComboAction.None, suppressed, none)
    -- Check instant combos (edge-triggered)
    let folded := INSTANT_COMBOS.foldl
      (fun (acc : ComboAction × SuppressedButtons) bc =>
        let pressed := buttons.get bc.1
        let was_pressed := st.prev_buttons.get bc.1
        let sup := if pressed then acc.2.add bc.1 else acc.2
        if pressed && !was_pressed then (bc.2, sup) else (acc.1, sup))
      (action₁, suppressed₁)
    -- In macro mode, L3+R3 alone toggles recording (rising edge)
    let any_combo_btn := dpad_down || INSTANT_COMBOS.any (fun bc => buttons.get bc.1)
    let action₂ :=
      if st.macro_mode && !st.prev_base_held && !any_combo_btn then
        ComboAction.ToggleRecording
      else folded.1
    ((action₂, folded.2),
     ⟨st.macro_mode, start₁, buttons, base_held⟩)
  else
    ((ComboAction.None, SuppressedButtons.default),
     ⟨st.macro_mode, none, buttons, base_held⟩)

/-! ### Claims about combo.rs -/

/-- The button set in which exactly the two stick buttons are pressed. -/
def chord_l3_r3 : ButtonState :=
  { ButtonState.default with l3 := true, r3 := true }

/-- C3 counterexample: with the macro-mode flag set, pressing exactly
L3+R3 on the rising edge of the chord does NOT return "no action" — the
detector emits `ToggleRecording` (refuting the claim's "including any
value of the macro-mode flag"). -/
theorem combo_chord_macro_mode_emits_action :
    (({ ComboDetector.new with macro_mode := true } : ComboDetector).update
        0 chord_l3_r3).1.1 ≠ ComboAction.None := by
  decide

/-- C3 (amended): for every combo-detector state and clock value, calling
`update` with the button set in which exactly L3 and R3 are pressed
returns a suppressed set containing exactly L3 and R3, and returns no
action on the frame of press unless macro mode is active and the chord is
rising-edged, in which case it returns `ToggleRecording`. -/
theorem combo_chord_suppresses_exactly_sticks (st : ComboDetector) (now : ℚ) :
    ((st.update now chord_l3_r3).1.2.contains .L3 = true ∧
     (st.update now chord_l3_r3).1.2.contains .R3 = true ∧
     ∀ b : Button, (st.update now chord_l3_r3).1.2.contains b = true →
       b = Button.L3 ∨ b = Button.R3) ∧
    (st.update now chord_l3_r3).1.1 =
      (if st.macro_mode && !st.prev_base_held then ComboAction.ToggleRecording
       else ComboAction.None) := by
  have hupd : st.update now chord_l3_r3 =
      ((if st.macro_mode && !st.prev_base_held then ComboAction.ToggleRecording
        else ComboAction.None,
        (SuppressedButtons.default.add .L3).add .R3),
       ⟨st.macro_mode, none, chord_l3_r3, true⟩) := by
    simp [ComboDetector.update, chord_l3_r3, ButtonState.default, ButtonState.get,
          INSTANT_COMBOS, SuppressedButtons.add, SuppressedButtons.default]
  rw [hupd]
  refine ⟨⟨rfl, rfl, ?_⟩, rfl⟩
  intro b
  cases b <;>
    simp [SuppressedButtons.contains, SuppressedButtons.add, SuppressedButtons.default]

/-- C3 witness: the chord evaluated on the fresh detector (macro mode
off): L3 is suppressed and no action is emitted. -/
theorem combo_chord_suppresses_exactly_sticks_witness :
    (ComboDetector.new.update 0 chord_l3_r3).1.2.contains Button.L3 = true ∧
    (ComboDetector.new.update 0 chord_l3_r3).1.1 = ComboAction.None :=
  ⟨(combo_chord_suppresses_exactly_sticks ComboDetector.new 0).1.1, by
    have h := (combo_chord_suppresses_exactly_sticks ComboDetector.new 0).2
    simpa [ComboDetector.new] using h⟩

/-- Each button's byte index inside the 3-byte button field is 0, 1 or 2. -/
theorem Button.position_fst_lt (b : Button) : b.position.1 < 3 := by
  cases b <;> decide

/-- Invariant of the `filter_raw_report` fold: bytes outside indices
3, 4, 5 are untouched, the length is preserved, and every byte of the
result is a bitwise-and submask of the corresponding original byte. -/
theorem filter_step_fold_invariant (l : List (Option Button))
    (report : List Nat) :
    ∀ rep : List Nat,
      rep.length = report.length →
      (∀ i, i ≠ 3 → i ≠ 4 → i ≠ 5 → rep.getD i 0 = report.getD i 0) →
      (∀ i, rep.getD i 0 &&& report.getD i 0 = rep.getD i 0) →
      (l.foldl filter_step rep).length = report.length ∧
      (∀ i, i ≠ 3 → i ≠ 4 → i ≠ 5 →
        (l.foldl filter_step rep).getD i 0 = report.getD i 0) ∧
      (∀ i, (l.foldl filter_step rep).getD i 0 &&& report.getD i 0 =
        (l.foldl filter_step rep).getD i 0) := by
  induction l with
  | nil => intro rep h1 h2 h3; exact ⟨h1, h2, h3⟩
  | cons hd tl ih =>
      intro rep h1 h2 h3
      simp only [List.foldl_cons]
      apply ih
      · cases hd with
        | none => simpa [filter_step] using h1
        | some btn => simp [filter_step, h1]
      · cases hd with
        | none => simpa [filter_step] using h2
        | some btn =>
            intro i hi3 hi4 hi5
            have hne : 3 + btn.position.1 ≠ i := by
              have := btn.position_fst_lt
              omega
            simp only [filter_step, List.getD_eq_getElem?_getD]
            rw [List.getElem?_set_ne hne]
            have := h2 i hi3 hi4 hi5
            simpa [List.getD_eq_getElem?_getD] using this
      · cases hd with
        | none => simpa [filter_step] using h3
        | some btn =>
            intro i
            by_cases hi : 3 + btn.position.1 = i
            · subst hi
              by_cases hlt : 3 + btn.position.1 < rep.length
              · simp only [filter_step, List.getD_eq_getElem?_getD]
                rw [List.getElem?_set_self hlt]
                have horig := h3 (3 + btn.position.1)
                simp only [List.getD_eq_getElem?_getD] at horig
                simp only [Option.getD_some]
                rw [Nat.and_assoc, Nat.and_comm (255 ^^^ btn.position.2),
                  ← Nat.and_assoc]
                rw [horig]
              · have hset : rep.set (3 + btn.position.1)
                    (rep.getD (3 + btn.position.1) 0 &&& (255 ^^^ btn.position.2)) = rep := by
                  apply List.set_eq_of_length_le
                  omega
                simp only [filter_step, hset]
                exact h3 (3 + btn.position.1)
            · simp only [filter_step, List.getD_eq_getElem?_getD]
              rw [List.getElem?_set_ne hi]
              have := h3 i
              simpa [List.getD_eq_getElem?_getD] using this

/-- C10: for every suppressed-button set (with its fill count within the
8-slot array) and every 64-byte raw report, `filter_raw_report` keeps the
length, changes at most bytes 3, 4 and 5, and on every byte the result
is a bitwise-and submask of the original (bits are only ever cleared). -/
theorem filter_raw_report_frame (sup : SuppressedButtons) (report : List Nat)
    (_hlen : report.length = 64) :
    (sup.filter_raw_report report).length = report.length ∧
    (∀ i, i ≠ 3 → i ≠ 4 → i ≠ 5 →
      (sup.filter_raw_report report).getD i 0 = report.getD i 0) ∧
    (∀ i, (sup.filter_raw_report report).getD i 0 &&& report.getD i 0 =
      (sup.filter_raw_report report).getD i 0) := by
  unfold SuppressedButtons.filter_raw_report
  exact filter_step_fold_invariant (sup.buttons.take sup.count) report report
    rfl (fun _ _ _ _ => rfl) (fun i => Nat.and_self _)

/-- C10 witness: filtering an all-0xFF report through a set suppressing B,
L3 and Home leaves byte 0 alone and clears only bits of byte 3. -/
theorem filter_raw_report_frame_witness :
    ((List.replicate 64 255 : List Nat).length = 64) ∧
    ((((SuppressedButtons.default.add .B).add .L3).add .Home).filter_raw_report
        (List.replicate 64 255)).getD 0 0 = (List.replicate 64 255 : List Nat).getD 0 0 ∧
    ((((SuppressedButtons.default.add .B).add .L3).add .Home).filter_raw_report
        (List.replicate 64 255)).getD 3 0 &&& (List.replicate 64 255 : List Nat).getD 3 0 =
      ((((SuppressedButtons.default.add .B).add .L3).add .Home).filter_raw_report
        (List.replicate 64 255)).getD 3 0 :=
  ⟨by decide,
   (filter_raw_report_frame (((SuppressedButtons.default.add .B).add .L3).add .Home)
      (List.replicate 64 255) (by decide)).2.1 0 (by decide) (by decide) (by decide),
   (filter_raw_report_frame (((SuppressedButtons.default.add .B).add .L3).add .Home)
      (List.replicate 64 255) (by decide)).2.2 3⟩

/-! ## macro_engine/player.rs -/

/-- Available playback speed presets; port of `SPEED_PRESETS`. -/
def SPEED_PRESETS : List ℚ := [1/4, 1/2, 1, 2, 4]

/-- Rust's `f64::clamp(lo, hi)`: below `lo` gives `lo`, above `hi` gives
`hi`, otherwise the value itself. -/
def rustClamp (x lo hi : ℚ) : ℚ :=
  if x < lo then lo else if hi < x then hi else x

/-- Macro player state; port of `MacroPlayer` in
`src/macro_engine/player.rs`.  The memory map is modelled as the mapped
file's bytes, the start instant as rational seconds. -/
structure MacroPlayer where
  playing : Bool
  looping : Bool
  speed : ℚ
  mmap : Option (List Nat)
  frame_count : Nat
  frame_index : Nat
  start : Option ℚ
  last_report : Option (List Nat)

/-- Port of `MacroPlayer::new`. -/
def MacroPlayer.new : MacroPlayer :=
  ⟨false, false, 1, none, 0, 0, none, none⟩

/-- Set playback speed (clamped to valid range); port of
`MacroPlayer::set_speed`:
`speed.clamp(SPEED_PRESETS[0], SPEED_PRESETS[SPEED_PRESETS.len() - 1])`. -/
def MacroPlayer.set_speed (p : MacroPlayer) (speed : ℚ) : MacroPlayer :=
  let lo := SPEED_PRESETS.getD 0 0
  let hi := SPEED_PRESETS.getD (SPEED_PRESETS.length - 1) 0
  { p with speed := rustClamp speed lo hi }

/-- Port of `MacroController::set_playback_speed` in
`src/macro_engine/controller.rs`: it simply forwards to the player's
`set_speed` (the controller's other fields are untouched). -/
def MacroController.set_playback_speed (player : MacroPlayer) (speed : ℚ) :
    MacroPlayer :=
  player.set_speed speed

/-! ### Claim C4 -/

/-- C4 counterexample: `set_speed(1.5)` leaves the player's speed scalar
at 1.5, which is none of the five preset values 0.25, 0.5, 1.0, 2.0,
4.0 — the clamp is to the interval, not to the preset set. -/
theorem set_speed_not_snapped_to_presets :
    (MacroPlayer.new.set_speed (3/2)).speed = 3/2 ∧
    (MacroPlayer.new.set_speed (3/2)).speed ∉ SPEED_PRESETS := by
  have hval : (MacroPlayer.new.set_speed (3/2)).speed = 3/2 := by
    norm_num [MacroPlayer.new, MacroPlayer.set_speed, rustClamp, SPEED_PRESETS]
  refine ⟨hval, ?_⟩
  rw [hval]
  norm_num [SPEED_PRESETS]

/-- C4 (amended): after `set_speed(v)` with any v (including via the
`SetPlaybackSpeed` command path through the controller), the player's
speed scalar lies in the closed interval [0.25, 4] spanned by the
presets. -/
theorem set_speed_clamped_to_preset_range (p : MacroPlayer) (v : ℚ) :
    1/4 ≤ (p.set_speed v).speed ∧ (p.set_speed v).speed ≤ 4 ∧
    (MacroController.set_playback_speed p v).speed = (p.set_speed v).speed := by
  have hs : (p.set_speed v).speed = rustClamp v (1/4) 4 := by
    norm_num [MacroPlayer.set_speed, SPEED_PRESETS]
  refine ⟨?_, ?_, rfl⟩ <;> rw [hs] <;> unfold rustClamp <;>
    split_ifs <;> linarith

/-! ## macro_engine/storage.rs -/

/-- The current binary magic `b"MAC2"`. -/
def MAGIC : List Nat := [0x4D, 0x41, 0x43, 0x32]

def FORMAT_VERSION : Nat := 2

def REPORT_SIZE : Nat := 64

def HEADER_SIZE : Nat := 16

def FRAME_SIZE : Nat := 8 + REPORT_SIZE

/-- A macro index entry; port of `MacroEntry` in
`src/macro_engine/storage.rs`. -/
structure MacroEntry where
  id : Nat
  name : String
  filename : String
  frame_count : Nat
  duration_ms : Nat
  created : String
  deriving DecidableEq

/-- Port of `next_id`: `index.iter().map(|e| e.id).max().unwrap_or(0) + 1`. -/
def next_id (index : List MacroEntry) : Nat :=
  (index.map (fun e => e.id)).foldr max 0 + 1

/-- Rust's `{id:03}` formatting: decimal, zero-padded to width 3. -/
def pad3 (n : Nat) : String :=
  if n < 10 then "00" ++ toString n
  else if n < 100 then "0" ++ toString n
  else toString n

/-- Little-endian byte encoding of `n` on `k` bytes (Rust `to_le_bytes`). -/
def leBytes (k n : Nat) : List Nat :=
  (List.range k).map (fun i => n / 256 ^ i % 256)

/-- The byte string written by `saveMacro`: 16-byte header
(magic, version u16 LE, report size u16 LE, frame count u32 LE,
duration-µs u32 LE) followed by, per frame, an 8-byte LE timestamp and
the raw 64-byte report. -/
def macro_file_bytes (frame_count duration_us : Nat)
    (frames : List (Nat × List Nat)) : List Nat :=
  MAGIC ++ leBytes 2 FORMAT_VERSION ++ leBytes 2 REPORT_SIZE
    ++ leBytes 4 frame_count ++ leBytes 4 duration_us
    ++ (frames.map (fun f => leBytes 8 f.1 ++ f.2)).flatten

/-- Save recorded frames; port of `saveMacro` in
`src/macro_engine/storage.rs`.  The filesystem is modelled by the
`writeOk` flag (whether `fs::write` succeeds) and by returning the file
that would be written; `created` stands for the `chrono_now()` stamp.
Returns (macro id, updated index, written (filename, bytes)). -/
def saveMacro (writeOk : Bool) (index : List MacroEntry)
    (frames : List (Nat × List Nat)) (name : Option String)
    (created : String) :
    Option Nat × List MacroEntry × Option (String × List Nat) :=
  if frames.isEmpty then (none, index, none)
  else
    let id := next_id index
    let name := name.getD ("macro_" ++ toString id)
    let filename := pad3 id ++ "_" ++ name ++ ".bin"
    let frame_count := frames.length % 2 ^ 32
    let duration_us := ((frames.getLast?).map (fun f => f.1 % 2 ^ 32)).getD 0
    let data := macro_file_bytes frame_count duration_us frames
    if writeOk then
      (some id,
       index ++ [⟨id, name, filename, frame_count, duration_us / 1000, created⟩],
       some (filename, data))
    else (none, index, none)

/-! ## macro_engine/recorder.rs -/

/-- Macro recorder state; port of `MacroRecorder` in
`src/macro_engine/recorder.rs`. -/
structure MacroRecorder where
  recording : Bool
  frames : List (Nat × List Nat)
  start : Option ℚ

/-- Port of `MacroRecorder::save`: forward the buffer to
`storage::saveMacro`, then clear the buffer unconditionally. -/
def MacroRecorder.save (rec : MacroRecorder) (writeOk : Bool)
    (index : List MacroEntry) (name : Option String) (created : String) :
    (Option Nat × List MacroEntry × Option (String × List Nat)) × MacroRecorder :=
  let result := saveMacro writeOk index rec.frames name created
  (result, { rec with frames := [] })

/-! ### Claims C5 and C6 -/

/-- `leBytes` always produces exactly `k` bytes. -/
theorem leBytes_length (k n : Nat) : (leBytes k n).length = k := by
  simp [leBytes]

/-- The bytes written for a frame list of 64-byte reports have length
16 + frame_count × 72. -/
theorem macro_file_bytes_length (c d : Nat) (frames : List (Nat × List Nat))
    (h : ∀ f ∈ frames, (f.2 : List Nat).length = 64) :
    (macro_file_bytes c d frames).length = 16 + frames.length * 72 := by
  have hjoin : ((frames.map (fun f => leBytes 8 f.1 ++ f.2)).flatten).length
      = frames.length * 72 := by
    induction frames with
    | nil => simp
    | cons hd tl ih =>
        have hh := h hd (by simp)
        have ih' := ih (fun f hf => h f (by simp [hf]))
        simp only [List.map_cons, List.flatten_cons, List.length_append,
          leBytes_length, hh, ih', List.length_cons]
        ring
  simp only [macro_file_bytes, List.length_append, leBytes_length, hjoin, MAGIC,
    List.length_cons, List.length_nil]

/-- C5: saving the frame list [(0, F), (1000, F), (2000, F)] (64-byte
report F) with name "jump" into a macros directory whose index is empty
returns id 1, creates filename `001_jump.bin`, and produces file
contents of length 16 + 3·72 = 232 whose header encodes frame count 3
at bytes 8..11 and duration 2000 µs at bytes 12..15; and in general any
file written by `saveMacro` for 64-byte reports has size
16 + frame_count × (8 + 64). -/
theorem save_macro_jump (F : List Nat) (created : String) (hF : F.length = 64) :
    (saveMacro true [] [(0, F), (1000, F), (2000, F)] (some "jump") created).1
      = some 1 ∧
    (saveMacro true [] [(0, F), (1000, F), (2000, F)] (some "jump") created).2.2
      = some ("001_jump.bin",
          macro_file_bytes 3 2000 [(0, F), (1000, F), (2000, F)]) ∧
    (macro_file_bytes 3 2000 [(0, F), (1000, F), (2000, F)]).length = 232 ∧
    ((macro_file_bytes 3 2000 [(0, F), (1000, F), (2000, F)]).take 16
      = [0x4D, 0x41, 0x43, 0x32, 2, 0, 64, 0, 3, 0, 0, 0, 0xD0, 0x07, 0, 0]) ∧
    (∀ (writeOk : Bool) (index : List MacroEntry)
       (frames : List (Nat × List Nat)) (nm : Option String) (cr : String)
       (fn : String) (data : List Nat),
       (∀ f ∈ frames, (f.2 : List Nat).length = 64) →
       (saveMacro writeOk index frames nm cr).2.2 = some (fn, data) →
       data.length = 16 + frames.length * (8 + 64)) := by
  refine ⟨?_, ?_, ?_, ?_, ?_⟩
  · rfl
  · rfl
  · have := macro_file_bytes_length 3 2000 [(0, F), (1000, F), (2000, F)]
      (by intro f hf; simp at hf; rcases hf with h | h | h <;> simp [h, hF])
    simpa using this
  · have h2v : leBytes 2 FORMAT_VERSION = [2, 0] := by decide
    have h2r : leBytes 2 REPORT_SIZE = [64, 0] := by decide
    have h43 : leBytes 4 3 = [3, 0, 0, 0] := by decide
    have h42000 : leBytes 4 2000 = [0xD0, 0x07, 0, 0] := by decide
    have hpre : macro_file_bytes 3 2000 [(0, F), (1000, F), (2000, F)]
        = [0x4D, 0x41, 0x43, 0x32, 2, 0, 64, 0, 3, 0, 0, 0, 0xD0, 0x07, 0, 0]
          ++ ((leBytes 8 0 ++ F) ++ ((leBytes 8 1000 ++ F) ++ ((leBytes 8 2000 ++ F) ++ []))) := by
      unfold macro_file_bytes
      rw [h2v, h2r, h43, h42000]
      simp [MAGIC]
    rw [hpre, List.take_left' (by rfl)]
  · intro writeOk index frames nm cr fn data hrep hsome
    unfold saveMacro at hsome
    by_cases hempty : frames.isEmpty
    · simp [hempty] at hsome
    · simp only [hempty, if_false, Bool.false_eq_true] at hsome
      cases writeOk with
      | false => simp at hsome
      | true =>
          simp only [if_true] at hsome
          have hdata : data = macro_file_bytes (frames.length % 2 ^ 32)
              (((frames.getLast?).map (fun f => f.1 % 2 ^ 32)).getD 0) frames := by
            have := congrArg (fun o => (Option.map Prod.snd o)) hsome
            simp at this
            exact this.symm
          rw [hdata]
          exact macro_file_bytes_length _ _ frames hrep

/-- C5 witness: the save evaluated at the all-zero 64-byte report. -/
theorem save_macro_jump_witness :
    (saveMacro true []
        [(0, List.replicate 64 0), (1000, List.replicate 64 0), (2000, List.replicate 64 0)]
        (some "jump") "now").1 = some 1 ∧
    (macro_file_bytes 3 2000
        [(0, List.replicate 64 0), (1000, List.replicate 64 0), (2000, List.replicate 64 0)]).length
      = 232 :=
  ⟨(save_macro_jump (List.replicate 64 0) "now" (by decide)).1,
   (save_macro_jump (List.replicate 64 0) "now" (by decide)).2.2.1⟩

/-- C6: if the recorder's frame buffer is empty, `save` returns no id,
adds no index entry and writes no file; and after any call to `save`
(buffer empty or not, write successful or not) the recorder's frame
buffer is empty. -/
theorem recorder_save_clears_buffer (rec : MacroRecorder) (writeOk : Bool)
    (index : List MacroEntry) (name : Option String) (created : String) :
    (rec.frames = [] →
      (rec.save writeOk index name created).1.1 = none ∧
      (rec.save writeOk index name created).1.2.1 = index ∧
      (rec.save writeOk index name created).1.2.2 = none) ∧
    (rec.save writeOk index name created).2.frames = [] := by
  constructor
  · intro h
    simp [MacroRecorder.save, saveMacro, h]
  · simp [MacroRecorder.save]

/-- C6 witness: an idle recorder with an empty buffer, saved into an
empty index. -/
theorem recorder_save_clears_buffer_witness :
    ((⟨false, [], none⟩ : MacroRecorder).save true [] none "now").1.1 = none ∧
    ((⟨false, [], none⟩ : MacroRecorder).save true [] none "now").1.2.1 = [] ∧
    ((⟨false, [], none⟩ : MacroRecorder).save true [] none "now").2.frames = [] :=
  ⟨((recorder_save_clears_buffer ⟨false, [], none⟩ true [] none "now").1 rfl).1,
   ((recorder_save_clears_buffer ⟨false, [], none⟩ true [] none "now").1 rfl).2.1,
   (recorder_save_clears_buffer ⟨false, [], none⟩ true [] none "now").2⟩

/-! ## web/state.rs -/

/-- Current playback input state for visualization; port of
`PlaybackInput` in `src/web/state.rs` (stick coordinates as ℚ). -/
structure PlaybackInput where
  buttons : List String
  left_stick : ℚ × ℚ
  right_stick : ℚ × ℚ
  deriving DecidableEq

/-- Thread-safe MITM state snapshot for the web UI; port of
`StateSnapshot` in `src/web/state.rs`. -/
structure StateSnapshot where
  macro_mode : Bool
  recording : Bool
  playing : Bool
  current_slot : Nat
  slot_count : Nat
  current_macro_name : Option String
  usb_connected : Bool
  bt_connected : Bool
  playback_speed : ℚ
  looping : Bool
  playback_frame : Nat
  playback_frame_count : Nat
  playback_input : Option PlaybackInput
  deriving DecidableEq

/-- The `Default` value of `StateSnapshot`. -/
def StateSnapshot.default : StateSnapshot :=
  ⟨false, false, false, 0, 0, none, false, false, 1, false, 0, 0, none⟩

/-- Shared state (snapshot + dirty bit); port of `MitmState` in
`src/web/state.rs`; mutation is modelled by explicit state passing
(the Rust mutexes serialize accesses). -/
structure MitmState where
  inner : StateSnapshot
  changed : Bool
  deriving DecidableEq

/-- Port of `MitmState::new`. -/
def MitmState.new : MitmState :=
  ⟨StateSnapshot.default, false⟩

/-- Port of `MitmState::update`: overwrite the snapshot and mark dirty
only when the new snapshot differs structurally. -/
def MitmState.update (st : MitmState) (snapshot : StateSnapshot) : MitmState :=
  if st.inner ≠ snapshot then ⟨snapshot, true⟩ else st

/-- Port of `MitmState::pop_if_changed`: return the snapshot and clear
the dirty bit if set, else return nothing. -/
def MitmState.pop_if_changed (st : MitmState) : Option StateSnapshot × MitmState :=
  if st.changed then (some st.inner, ⟨st.inner, false⟩) else (none, st)

/-- A call in a client's interleaving of `update` and `pop_if_changed`. -/
inductive WebOp where
  | upd (s : StateSnapshot)
  | pop

/-- Run a sequence of calls against the shared state, collecting each
`pop_if_changed` result in order. -/
def runOps : MitmState → List WebOp → MitmState × List (Option StateSnapshot)
  | st, [] => (st, [])
  | st, WebOp.upd s :: rest => runOps (st.update s) rest
  | st, WebOp.pop :: rest =>
      let p := st.pop_if_changed
      let r := runOps p.2 rest
      (r.1, p.1 :: r.2)

/-- Every `update` in the sequence carries a snapshot structurally equal
to the snapshot stored at the time it is applied. -/
def onlyIdenticalUpdates : MitmState → List WebOp → Bool
  | _, [] => true
  | st, WebOp.upd s :: rest =>
      decide (s = st.inner) && onlyIdenticalUpdates (st.update s) rest
  | st, WebOp.pop :: rest => onlyIdenticalUpdates (st.pop_if_changed).2 rest

/-- The sequence contains no `pop_if_changed` call. -/
def noPops (ops : List WebOp) : Bool :=
  ops.all (fun o => match o with | WebOp.pop => false | WebOp.upd _ => true)

/-! ### Claim C8 -/

/-- An update with a structurally identical snapshot is the identity. -/
theorem MitmState.update_identical (st : MitmState) (s : StateSnapshot)
    (h : s = st.inner) : st.update s = st := by
  simp [MitmState.update, h]

/-- A sequence of identical updates without pops leaves the state as is. -/
theorem runOps_identical_noPops (ops : List WebOp) :
    ∀ st : MitmState, onlyIdenticalUpdates st ops = true → noPops ops = true →
      (runOps st ops).1 = st := by
  induction ops with
  | nil => intro st _ _; rfl
  | cons hd tl ih =>
      intro st hid hnp
      cases hd with
      | upd s =>
          simp only [onlyIdenticalUpdates, Bool.and_eq_true, decide_eq_true_eq] at hid
          simp only [noPops, List.all_cons, Bool.and_eq_true] at hnp
          have hupd := MitmState.update_identical st s hid.1
          simp only [runOps]
          rw [ih (st.update s) hid.2 (by simp [noPops, hnp.2]), hupd]
      | pop =>
          simp [noPops] at hnp

/-- From a clean state, identical updates keep the state clean and every
pop returns nothing. -/
theorem runOps_clean_all_none (ops : List WebOp) :
    ∀ st : MitmState, st.changed = false →
      onlyIdenticalUpdates st ops = true →
      (runOps st ops).1 = st ∧ ∀ r ∈ (runOps st ops).2, r = none := by
  induction ops with
  | nil => intro st _ _; exact ⟨rfl, by simp [runOps]⟩
  | cons hd tl ih =>
      intro st hclean hid
      cases hd with
      | upd s =>
          simp only [onlyIdenticalUpdates, Bool.and_eq_true, decide_eq_true_eq] at hid
          have hupd := MitmState.update_identical st s hid.1
          simp only [runOps]
          rw [hupd] at hid ⊢
          exact ih st hclean hid.2
      | pop =>
          have hpop : st.pop_if_changed = (none, st) := by
            simp [MitmState.pop_if_changed, hclean]
          simp only [onlyIdenticalUpdates, hpop] at hid
          simp only [runOps, hpop]
          refine ⟨(ih st hclean hid).1, ?_⟩
          intro r hr
          simp only [List.mem_cons] at hr
          rcases hr with h | h
          · exact h
          · exact (ih st hclean hid).2 r h

/-- The dirty bit is clear right after any `pop_if_changed`. -/
theorem MitmState.pop_clears_changed (st : MitmState) :
    ((st.pop_if_changed).2).changed = false := by
  unfold MitmState.pop_if_changed
  split
  · rfl
  · next h => simpa using h

/-- C8: (i) after an update whose snapshot differs structurally from the
stored one, the first `pop_if_changed` — with any number of intervening
structurally-identical updates — returns `some` with that snapshot;
(ii) after a pop, every later pop returns `none` as long as every
intervening update is structurally identical to the stored snapshot;
(iii) an update with a structurally identical snapshot on a clean state
never makes the next pop return `some`. -/
theorem mitm_pop_if_changed_dirty_protocol (st : MitmState) (s : StateSnapshot)
    (ops : List WebOp) :
    (s ≠ st.inner → onlyIdenticalUpdates (st.update s) ops = true →
      noPops ops = true →
      ((runOps (st.update s) ops).1.pop_if_changed).1 = some s) ∧
    (onlyIdenticalUpdates (st.pop_if_changed).2 ops = true →
      ∀ r ∈ (runOps (st.pop_if_changed).2 ops).2, r = none) ∧
    (st.changed = false → s = st.inner →
      ((st.update s).pop_if_changed).1 = none) := by
  refine ⟨?_, ?_, ?_⟩
  · intro hne hid hnp
    have hne' : st.inner ≠ s := fun h => hne h.symm
    have hupd : st.update s = ⟨s, true⟩ := by
      simp [MitmState.update, hne']
    rw [runOps_identical_noPops ops (st.update s) hid hnp, hupd]
    rfl
  · intro hid
    exact (runOps_clean_all_none ops (st.pop_if_changed).2
      (MitmState.pop_clears_changed st) hid).2
  · intro hclean hident
    rw [MitmState.update_identical st s hident]
    simp [MitmState.pop_if_changed, hclean]

/-- C8 witness: from the fresh shared state, updating with a snapshot
whose macro-mode flag is flipped makes the next pop return it. -/
theorem mitm_pop_if_changed_dirty_protocol_witness :
    ((runOps (MitmState.new.update
        { StateSnapshot.default with macro_mode := true }) []).1.pop_if_changed).1
      = some { StateSnapshot.default with macro_mode := true } :=
  (mitm_pop_if_changed_dirty_protocol MitmState.new
    { StateSnapshot.default with macro_mode := true } []).1 (by decide) rfl rfl

end NintendoPi
